import Mathlib

/-!
Verification development for the todo state/render engine.

The program has two variants of the same TodoApp class:
the base variant (src/app.ts, compiled form src/unnamed/part_000) whose Todo
record has fields id, title, completed, createdAt; and the priority variant
(src/unnamed/part_001) whose record adds a priority field and a cyclePriority
operation.  Both are embedded below: the base variant keeps the source names
(Todo, addTodo, toggleTodo, deleteTodo, editTodo, getFilteredTodos,
clearCompletedTodos, finishEdit, ...), the priority variant uses a P suffix
where the two variants would collide (TodoP, editTodoP, finishEditP).

Modelling conventions:
- a JS Date is its millisecond value since the epoch, an Int (JS Date
  timestamps are always integral milliseconds, and toISOString followed by
  new Date recovers exactly that value, so serialization of createdAt is
  exact at millisecond precision);
- generateId() and Date.now() are impure inputs of addTodo and are passed
  as explicit parameters (freshId, now);
- localStorage is a single Option-valued slot; JSON.stringify / JSON.parse
  are the external persistence codec boundary of the spec and are modelled
  by a StoredValue type that is either a well-formed serialized record array
  or malformed text, parsing the former succeeding and the latter raising,
  exactly the two outcomes JSON.parse has on this slot.
-/

/-- View filter, type FilterType of src/app.ts line 9. -/
inductive FilterType
  | all
  | active
  | completed
deriving DecidableEq, Repr

/-- Todo record of the base variant, interface Todo of src/app.ts lines 2-7.
createdAt is a JS Date, modelled as milliseconds since the epoch. -/
structure Todo where
  id : String
  title : String
  completed : Bool
  createdAt : Int
deriving DecidableEq, Repr

/-- Priority enumeration of the priority variant, src/unnamed/part_001 line 7. -/
inductive Priority
  | low
  | medium
  | high
deriving DecidableEq, Repr

/-- Todo record of the priority variant, interface Todo of
src/unnamed/part_001 lines 2-8. -/
structure TodoP where
  id : String
  title : String
  completed : Bool
  createdAt : Int
  priority : Priority
deriving DecidableEq, Repr

/-- Find-and-mutate pattern shared by toggleTodo, editTodo and cyclePriority:
the JS code runs const todo = this.todos.find(p) and then mutates the found
record in place, so only the FIRST element satisfying p is replaced by f of
it; every other element, including later matches, is untouched.  When no
element matches, the list is returned unchanged (the JS guard if (todo)). -/
def updateFirst {α : Type _} (p : α → Bool) (f : α → α) : List α → List α
  | [] => []
  | x :: xs => if p x then f x :: xs else x :: updateFirst p f xs

/-- Model of JS String.prototype.trim as used throughout the source: removes
leading and trailing whitespace.  Defined structurally over the character
list (rather than with the library trim, whose well-founded recursion does
not reduce inside the kernel) so that concrete instances evaluate. -/
def jsTrim (s : String) : String :=
  String.mk (((s.data.dropWhile Char.isWhitespace).reverse.dropWhile Char.isWhitespace).reverse)

/-- addTodo of src/app.ts lines 63-74: builds the record with completed =
false and createdAt = now and unshifts (prepends) it.  There is no check on
title inside addTodo itself. -/
def addTodo (freshId : String) (now : Int) (title : String) (todos : List Todo) : List Todo :=
  let todo : Todo := { id := freshId, title := title, completed := false, createdAt := now }
  todo :: todos

/-- toggleTodo of src/app.ts lines 76-83: flips completed on the first record
whose id matches; silently does nothing when none does. -/
def toggleTodo (id : String) (todos : List Todo) : List Todo :=
  updateFirst (fun t => t.id == id) (fun t => { t with completed := !t.completed }) todos

/-- deleteTodo of src/app.ts lines 85-89: keeps exactly the records whose id
differs. -/
def deleteTodo (id : String) (todos : List Todo) : List Todo :=
  todos.filter (fun t => t.id != id)

/-- editTodo of src/app.ts lines 91-98: when a record with the id exists and
the new title trims non-empty, stores the trimmed title on that record;
otherwise does nothing. -/
def editTodo (id : String) (newTitle : String) (todos : List Todo) : List Todo :=
  if jsTrim newTitle ≠ "" then
    updateFirst (fun t => t.id == id) (fun t => { t with title := jsTrim newTitle }) todos
  else todos

/-- getFilteredTodos of src/app.ts lines 112-121: the switch on the current
filter; the default case (all) returns the collection itself. -/
def getFilteredTodos (currentFilter : FilterType) (todos : List Todo) : List Todo :=
  match currentFilter with
  | .active => todos.filter (fun t => !t.completed)
  | .completed => todos.filter (fun t => t.completed)
  | .all => todos

/-- clearCompletedTodos of src/app.ts lines 123-127. -/
def clearCompletedTodos (todos : List Todo) : List Todo :=
  todos.filter (fun t => !t.completed)

/-- Active-item count displayed by updateTodoCount, src/app.ts line 155. -/
def activeTodos (todos : List Todo) : Nat :=
  (todos.filter (fun t => !t.completed)).length

/-- hasCompleted flag computed by updateEmptyState, src/app.ts line 181:
this.todos.some(t => t.completed). -/
def hasCompleted (todos : List Todo) : Bool :=
  todos.any (fun t => t.completed)

/-- State effect of finishEdit, src/app.ts lines 197-207: commit the edit
when the new title trims non-empty, otherwise delete the record.  The
surrounding DOM guard if (todoItem) only checks that the record is currently
rendered; the claims considered here concern records present in the
collection, for which that guard passes, so it is not part of the state
model. -/
def finishEdit (id : String) (newTitle : String) (todos : List Todo) : List Todo :=
  if jsTrim newTitle ≠ "" then editTodo id newTitle todos else deleteTodo id todos

/-- The keypress listener installed on the todo input, src/app.ts lines
41-46: only when the key is Enter and the input value trims non-empty does it
call addTodo on the trimmed value; otherwise the collection is untouched. -/
def todoInputKeypress (key : String) (value : String) (freshId : String) (now : Int)
    (todos : List Todo) : List Todo :=
  if key = "Enter" ∧ jsTrim value ≠ "" then addTodo freshId now (jsTrim value) todos else todos

/-- Runs a sequence of addTodo calls, each call supplying the fresh id, the
current time and the title, in order. -/
def runAdds (calls : List (String × Int × String)) (todos : List Todo) : List Todo :=
  calls.foldl (fun acc c => addTodo c.1 c.2.1 c.2.2 acc) todos

/-- The fixed priority array of cyclePriority, src/unnamed/part_001 line 185. -/
def priorities : List Priority := [.low, .medium, .high]

/-- cyclePriority of src/unnamed/part_001 lines 182-192: on the first record
whose id matches, replaces the priority by the entry of the priorities array
at index (indexOf current + 1) mod length; silently does nothing when no
record matches.  The index is always in range because every priority occurs
in the array, so the getD default is never consulted.  The body of the
in-place mutation is the separate definition cycleTodoPriority. -/
def cycleTodoPriority (t : TodoP) : TodoP :=
  let currentIndex := priorities.indexOf t.priority
  let nextIndex := (currentIndex + 1) % priorities.length
  { t with priority := priorities.getD nextIndex t.priority }

def cyclePriority (id : String) (todos : List TodoP) : List TodoP :=
  updateFirst (fun t => t.id == id) cycleTodoPriority todos

/-- editTodo of the priority variant, src/unnamed/part_001 lines 92-99; same
logic as the base variant. -/
def editTodoP (id : String) (newTitle : String) (todos : List TodoP) : List TodoP :=
  if jsTrim newTitle ≠ "" then
    updateFirst (fun t => t.id == id) (fun t => { t with title := jsTrim newTitle }) todos
  else todos

/-- State effect of finishEdit in the priority variant, src/unnamed/part_001
lines 204-212.  Unlike the base variant, there is NO else branch: a title
that trims empty leaves the collection untouched, it does not delete. -/
def finishEditP (id : String) (newTitle : String) (todos : List TodoP) : List TodoP :=
  if jsTrim newTitle ≠ "" then editTodoP id newTitle todos else todos

/-- Serialized form of a priority-variant record inside the stored JSON
array: same fields, with createdAt now the ISO-8601 text produced by
JSON.stringify on a Date, represented by the millisecond value that parsing
it back recovers exactly. -/
structure StoredTodoP where
  id : String
  title : String
  completed : Bool
  createdAt : Int
  priority : Priority
deriving DecidableEq, Repr

/-- Serialization of one record performed inside JSON.stringify. -/
def serializeTodoP (t : TodoP) : StoredTodoP :=
  { id := t.id, title := t.title, completed := t.completed,
    createdAt := t.createdAt, priority := t.priority }

/-- The revival step of loadFromStorage, src/unnamed/part_001 lines 225-228:
spread the parsed record and rebuild createdAt with new Date(...). -/
def reviveTodoP (s : StoredTodoP) : TodoP :=
  { id := s.id, title := s.title, completed := s.completed,
    createdAt := s.createdAt, priority := s.priority }

/-- Content of the localStorage slot named todos: either text that parses as
the serialized record array, or malformed text on which JSON.parse raises a
SyntaxError. -/
inductive StoredValue
  | jsonArray (records : List StoredTodoP)
  | malformed (text : String)
deriving DecidableEq, Repr

/-- JSON.stringify applied to the collection, as used by saveToStorage. -/
def jsonStringify (todos : List TodoP) : StoredValue :=
  .jsonArray (todos.map serializeTodoP)

/-- JSON.parse applied to the slot content: succeeds on well-formed text,
raises (modelled as Except.error) on malformed text. -/
def jsonParse : StoredValue → Except String (List StoredTodoP)
  | .jsonArray records => .ok records
  | .malformed _ => .error "SyntaxError: Unexpected token in JSON"

/-- saveToStorage of src/unnamed/part_001 lines 218-220: overwrites the slot
with the serialized collection. -/
def saveToStorage (todos : List TodoP) : StoredValue :=
  jsonStringify todos

/-- loadFromStorage of src/unnamed/part_001 lines 222-230 (identical in
src/app.ts lines 224-232 modulo the record type): when the slot is absent
the collection stays empty; when present, JSON.parse runs with NO try/catch
around it, so a parse failure propagates, and on success each parsed record
is revived.  The result type Except String reflects that the method can
raise. -/
def loadFromStorage (slot : Option StoredValue) : Except String (List TodoP) :=
  match slot with
  | none => .ok []
  | some stored => (jsonParse stored).map (fun parsed => parsed.map reviveTodoP)

/-- Spec-side definition for claim C9, following the words of the spec for
the fixed cyclic order low to medium to high and back to low; compared below
with what cyclePriority computes from the priorities array. -/
def specCycleStep : Priority → Priority
  | .low => .medium
  | .medium => .high
  | .high => .low

/-- When no element satisfies the predicate, find-and-mutate is the
identity. -/
theorem updateFirst_of_forall_neg {α : Type _} (p : α → Bool) (f : α → α) :
    ∀ l : List α, (∀ x ∈ l, p x = false) → updateFirst p f l = l := by
  intro l h
  induction l with
  | nil => rfl
  | cons x xs ih =>
    have hx : p x = false := h x (List.mem_cons_self x xs)
    simp [updateFirst, hx, ih fun y hy => h y (List.mem_cons_of_mem x hy)]

/-- When the mutation fixes every element it can touch, find-and-mutate is
the identity. -/
theorem updateFirst_of_fix {α : Type _} (p : α → Bool) (f : α → α)
    (hf : ∀ x, p x = true → f x = x) :
    ∀ l : List α, updateFirst p f l = l := by
  intro l
  induction l with
  | nil => rfl
  | cons x xs ih =>
    by_cases hx : p x = true
    · simp [updateFirst, hx, hf x hx]
    · simp only [Bool.not_eq_true] at hx
      simp [updateFirst, hx, ih]

/-- Two successive find-and-mutates with the same predicate compose the
mutations, provided the first mutation preserves the predicate (so the same
element is found both times). -/
theorem updateFirst_updateFirst {α : Type _} (p : α → Bool) (f g : α → α)
    (hg : ∀ x, p x = true → p (g x) = true) :
    ∀ l : List α, updateFirst p f (updateFirst p g l) = updateFirst p (fun x => f (g x)) l := by
  intro l
  induction l with
  | nil => rfl
  | cons x xs ih =>
    by_cases hx : p x = true
    · simp [updateFirst, hx, hg x hx]
    · simp only [Bool.not_eq_true] at hx
      simp [updateFirst, hx, ih]

/-- find? after find-and-mutate: the first matching element is now the
mutated one, provided the mutation preserved the predicate. -/
theorem find?_updateFirst {α : Type _} (p : α → Bool) (f : α → α) :
    ∀ (l : List α) (t : α), l.find? p = some t → p (f t) = true →
      (updateFirst p f l).find? p = some (f t) := by
  intro l
  induction l with
  | nil => intro t h _; simp at h
  | cons x xs ih =>
    intro t h hpt
    by_cases hx : p x = true
    · rw [List.find?_cons_of_pos _ hx] at h
      injection h with h
      subst h
      simp [updateFirst, hx, List.find?_cons_of_pos _ hpt]
    · simp only [Bool.not_eq_true] at hx
      simp [List.find?_cons, hx] at h
      simp [updateFirst, hx, List.find?_cons, ih t h hpt]

/-- Claim C1, counterexample: the claim says an add with a title whose
trimmed form is empty is a no-op, but addTodo performs no such check: on the
empty collection, addTodo with title "" creates a record and the collection
after the call differs from the collection before it. -/
theorem c1_counterexample :
    addTodo "a" 0 "" [] =
      [{ id := "a", title := "", completed := false, createdAt := 0 }] ∧
    addTodo "a" 0 "" [] ≠ ([] : List Todo) := by
  constructor
  · rfl
  · decide

/-- Claim C1 (amended): addTodo itself unconditionally prepends a record,
even for a blank title; the blank-title guard lives in the todo-input
keypress handler, which invokes addTodo only when the trimmed input value is
non-empty, so submitting a title whose trimmed form is empty leaves the
collection unchanged and creates no record. -/
theorem c1_blank_submit_noop (key value freshId : String) (now : Int)
    (todos : List Todo) (hblank : jsTrim value = "") :
    todoInputKeypress key value freshId now todos = todos := by
  simp [todoInputKeypress, hblank]

/-- Claim C1, witness: submitting the all-whitespace input value with Enter
leaves the empty collection empty. -/
theorem c1_witness :
    todoInputKeypress "Enter" "   " "a" 0 [] = ([] : List Todo) :=
  c1_blank_submit_noop "Enter" "   " "a" 0 [] (by decide)

/-- Claim C2, counterexample: in the priority variant, finishEdit has no
delete fallback; committing an edit with the empty title on an existing
record leaves the collection unchanged, and a record with that id still
exists afterwards, contradicting the claim that the record is deleted. -/
theorem c2_counterexample :
    finishEditP "a" "" [{ id := "a", title := "x", completed := false, createdAt := 0, priority := Priority.medium }] =
      [{ id := "a", title := "x", completed := false, createdAt := 0, priority := Priority.medium }] ∧
    "a" ∈ (finishEditP "a" "" [{ id := "a", title := "x", completed := false, createdAt := 0, priority := Priority.medium }]).map TodoP.id := by
  constructor
  · rfl
  · decide

/-- Claim C2 (amended): in the base variant, committing an edit with a title
whose trimmed form is empty deletes the record: no record with that id
remains in the collection nor in any filtered view.  In the priority
variant, finishEdit with a blank title is instead a no-op and the record is
retained. -/
theorem c2_blank_edit_commit (id newTitle : String) (todos : List Todo)
    (ptodos : List TodoP) (hblank : jsTrim newTitle = "")
    (_hmem : id ∈ todos.map Todo.id) :
    (∀ t ∈ finishEdit id newTitle todos, t.id ≠ id) ∧
    (∀ f, ∀ t ∈ getFilteredTodos f (finishEdit id newTitle todos), t.id ≠ id) ∧
    finishEditP id newTitle ptodos = ptodos := by
  have hdel : finishEdit id newTitle todos = deleteTodo id todos := by
    simp [finishEdit, hblank]
  have habs : ∀ t ∈ finishEdit id newTitle todos, t.id ≠ id := by
    intro t ht
    rw [hdel] at ht
    have := (List.mem_filter.mp ht).2
    simpa using this
  refine ⟨habs, ?_, ?_⟩
  · intro f t ht
    apply habs
    cases f with
    | all => exact ht
    | active => exact (List.mem_filter.mp ht).1
    | completed => exact (List.mem_filter.mp ht).1
  · simp [finishEditP, hblank]

/-- Claim C2, witness: blank edit-commit on the only record of a one-record
base collection leaves no record with that id, in the collection nor in any
view; and in the priority variant the blank edit-commit fixes the empty
collection. -/
theorem c2_witness :
    (∀ t ∈ finishEdit "a" "" [{ id := "a", title := "x", completed := false, createdAt := 0 }], t.id ≠ "a") ∧
    (∀ f, ∀ t ∈ getFilteredTodos f (finishEdit "a" "" [{ id := "a", title := "x", completed := false, createdAt := 0 }]),
      t.id ≠ "a") ∧
    finishEditP "a" "" [] = [] :=
  c2_blank_edit_commit "a" "" [{ id := "a", title := "x", completed := false, createdAt := 0 }] []
    (by decide) (by decide)

/-- Claim C3, counterexample: loadFromStorage runs JSON.parse with no
try/catch, so on a present but malformed slot the parse failure propagates
as an exceptional result, contradicting the claim that load never returns
an exceptional result. -/
theorem c3_counterexample :
    loadFromStorage (some (StoredValue.malformed "not json")) =
      Except.error "SyntaxError: Unexpected token in JSON" := rfl

/-- Claim C3 (amended): when the stored slot is absent, load yields the
empty collection and no error; when the slot holds a well-formed serialized
array, each record is revived; but when the slot is present and malformed,
the parse failure propagates as an exceptional result (the code has no
recovery path for it). -/
theorem c3_load_behaviour :
    loadFromStorage none = Except.ok ([] : List TodoP) ∧
    (∀ s : String, loadFromStorage (some (StoredValue.malformed s)) =
      Except.error "SyntaxError: Unexpected token in JSON") ∧
    (∀ records : List StoredTodoP,
      loadFromStorage (some (StoredValue.jsonArray records)) =
        Except.ok (records.map reviveTodoP)) :=
  ⟨rfl, fun _ => rfl, fun _ => rfl⟩

/-- Claim C4: for every collection, the filtered view under active contains
exactly the records with completed = false, under completed exactly those
with completed = true, under all every record, and under any filter the view
is a sublist of the collection, hence in current collection order. -/
theorem c4_filteredView_exact (todos : List Todo) :
    (∀ t, t ∈ getFilteredTodos .active todos ↔ t ∈ todos ∧ t.completed = false) ∧
    (∀ t, t ∈ getFilteredTodos .completed todos ↔ t ∈ todos ∧ t.completed = true) ∧
    getFilteredTodos .all todos = todos ∧
    (∀ f, List.Sublist (getFilteredTodos f todos) todos) := by
  refine ⟨?_, ?_, rfl, ?_⟩
  · intro t
    simp [getFilteredTodos, List.mem_filter]
  · intro t
    simp [getFilteredTodos, List.mem_filter]
  · intro f
    cases f with
    | all => exact List.Sublist.refl todos
    | active => exact List.filter_sublist todos
    | completed => exact List.filter_sublist todos

/-- Unfolds one addTodo step of a call sequence. -/
theorem runAdds_cons (c : String × Int × String) (cs : List (String × Int × String))
    (todos : List Todo) :
    runAdds (c :: cs) todos = runAdds cs (addTodo c.1 c.2.1 c.2.2 todos) := rfl

/-- Running a call sequence prepends the freshly built records, most recent
first, in front of the starting collection. -/
theorem runAdds_eq (calls : List (String × Int × String)) (todos : List Todo) :
    runAdds calls todos =
      (calls.map (fun c =>
        ({ id := c.1, title := c.2.2, completed := false, createdAt := c.2.1 } : Todo))).reverse
        ++ todos := by
  induction calls generalizing todos with
  | nil => rfl
  | cons c cs ih =>
    rw [runAdds_cons, ih]
    simp [addTodo, List.reverse_cons, List.append_assoc]

/-- Claim C5: starting from any collection of size k, a sequence of n
addTodo calls with non-empty trimmed titles yields a collection of size
k + n, built by prepending the new records in front of the old ones, and
the record of the most recent call is the first element of the all-filtered
view. -/
theorem c5_adds_prepend (calls : List (String × Int × String)) (todos : List Todo)
    (c : String × Int × String)
    (_htitles : ∀ x ∈ calls, jsTrim x.2.2 ≠ "")
    (hlast : calls.getLast? = some c) :
    runAdds calls todos =
      (calls.map (fun x =>
        ({ id := x.1, title := x.2.2, completed := false, createdAt := x.2.1 } : Todo))).reverse
        ++ todos ∧
    (runAdds calls todos).length = todos.length + calls.length ∧
    (getFilteredTodos .all (runAdds calls todos)).head? =
      some { id := c.1, title := c.2.2, completed := false, createdAt := c.2.1 } := by
  refine ⟨runAdds_eq calls todos, ?_, ?_⟩
  · rw [runAdds_eq]
    simp [Nat.add_comm]
  · show (runAdds calls todos).head? = _
    rw [runAdds_eq]
    rw [List.head?_append]
    rw [List.head?_reverse, List.getLast?_map, hlast]
    rfl

/-- Claim C5, witness: two adds on the empty collection produce two records,
and the all-filtered view starts with the record of the second add. -/
theorem c5_witness :
    runAdds [("i1", (1 : Int), "a"), ("i2", (2 : Int), "b")] ([] : List Todo) =
      [{ id := "i2", title := "b", completed := false, createdAt := 2 }, { id := "i1", title := "a", completed := false, createdAt := 1 }] ∧
    (runAdds [("i1", (1 : Int), "a"), ("i2", (2 : Int), "b")] ([] : List Todo)).length = 2 ∧
    (getFilteredTodos .all (runAdds [("i1", (1 : Int), "a"), ("i2", (2 : Int), "b")] ([] : List Todo))).head? =
      some { id := "i2", title := "b", completed := false, createdAt := 2 } :=
  c5_adds_prepend [("i1", (1 : Int), "a"), ("i2", (2 : Int), "b")] []
    ("i2", (2 : Int), "b") (by decide) (by decide)

/-- Claim C6: when no record carries the id, toggleTodo, deleteTodo,
editTodo and cyclePriority all complete (they are total functions of the
state, nothing raises) and return the collection unchanged. -/
theorem c6_missing_id_noop (id newTitle : String) (todos : List Todo)
    (ptodos : List TodoP)
    (h : id ∉ todos.map Todo.id) (hp : id ∉ ptodos.map TodoP.id) :
    toggleTodo id todos = todos ∧
    deleteTodo id todos = todos ∧
    editTodo id newTitle todos = todos ∧
    cyclePriority id ptodos = ptodos := by
  have hall : ∀ t ∈ todos, (t.id == id) = false := by
    intro t ht
    have hne : t.id ≠ id := by
      intro he
      exact h (he ▸ List.mem_map_of_mem Todo.id ht)
    simp [hne]
  have hallp : ∀ t ∈ ptodos, (t.id == id) = false := by
    intro t ht
    have hne : t.id ≠ id := by
      intro he
      exact hp (he ▸ List.mem_map_of_mem TodoP.id ht)
    simp [hne]
  refine ⟨?_, ?_, ?_, ?_⟩
  · exact updateFirst_of_forall_neg _ _ todos hall
  · apply List.filter_eq_self.mpr
    intro t ht
    simpa using hall t ht
  · unfold editTodo
    by_cases hnt : jsTrim newTitle ≠ ""
    · rw [if_pos hnt]
      exact updateFirst_of_forall_neg _ _ todos hall
    · rw [if_neg hnt]
  · exact updateFirst_of_forall_neg _ _ ptodos hallp

/-- Claim C6, witness: a missing id leaves a one-record base collection and
a one-record priority collection untouched under all four operations. -/
theorem c6_witness :
    toggleTodo "z" [{ id := "a", title := "x", completed := false, createdAt := 0 }] =
      [{ id := "a", title := "x", completed := false, createdAt := 0 }] ∧
    deleteTodo "z" [{ id := "a", title := "x", completed := false, createdAt := 0 }] =
      [{ id := "a", title := "x", completed := false, createdAt := 0 }] ∧
    editTodo "z" "y" [{ id := "a", title := "x", completed := false, createdAt := 0 }] =
      [{ id := "a", title := "x", completed := false, createdAt := 0 }] ∧
    cyclePriority "z" [{ id := "a", title := "x", completed := false, createdAt := 0, priority := Priority.low }] =
      [{ id := "a", title := "x", completed := false, createdAt := 0, priority := Priority.low }] :=
  c6_missing_id_noop "z" "y"
    [{ id := "a", title := "x", completed := false, createdAt := 0 }]
    [{ id := "a", title := "x", completed := false, createdAt := 0, priority := Priority.low }]
    (by decide) (by decide)

/-- Serialization followed by revival is the identity on a record: every
field passes through, and the createdAt timestamp survives the ISO round
trip exactly at millisecond precision. -/
theorem reviveTodoP_serializeTodoP (t : TodoP) : reviveTodoP (serializeTodoP t) = t := rfl

/-- Claim C7: for every non-empty collection, loading what save stored
reproduces the collection exactly: same ids, titles, completed flags,
priorities, and timestamps. -/
theorem c7_save_load_roundtrip (todos : List TodoP) (_hne : todos ≠ []) :
    loadFromStorage (some (saveToStorage todos)) = Except.ok todos := by
  show Except.ok ((todos.map serializeTodoP).map reviveTodoP) = Except.ok todos
  rw [List.map_map]
  congr 1
  simp [Function.comp_def, reviveTodoP_serializeTodoP]

/-- Claim C7, witness: the round trip on a concrete one-record collection. -/
theorem c7_witness :
    loadFromStorage (some (saveToStorage [{ id := "a", title := "x", completed := true, createdAt := 5, priority := Priority.high }])) =
      Except.ok [{ id := "a", title := "x", completed := true, createdAt := 5, priority := Priority.high }] :=
  c7_save_load_roundtrip
    [{ id := "a", title := "x", completed := true, createdAt := 5, priority := Priority.high }]
    (by decide)

/-- Claim C8: for an id present in the collection, toggling it twice
restores the collection, completed flags included; and after
clearCompletedTodos, hasCompleted is false. -/
theorem c8_toggle_involutive_clear (id : String) (todos : List Todo)
    (_hmem : id ∈ todos.map Todo.id) :
    toggleTodo id (toggleTodo id todos) = todos ∧
    hasCompleted (clearCompletedTodos todos) = false := by
  constructor
  · unfold toggleTodo
    rw [updateFirst_updateFirst (fun t : Todo => t.id == id)
      (fun t : Todo => { t with completed := !t.completed })
      (fun t : Todo => { t with completed := !t.completed }) (fun x hx => hx)]
    apply updateFirst_of_fix
    intro x _
    cases x with
    | mk i ti c ca => simp
  · unfold hasCompleted clearCompletedTodos
    rw [List.any_eq_false]
    intro x hx
    have := (List.mem_filter.mp hx).2
    simp at this
    simp [this]

/-- Claim C8, witness: toggling the only, completed, record twice restores
it, and clearing completed records leaves hasCompleted false. -/
theorem c8_witness :
    toggleTodo "a" (toggleTodo "a" [{ id := "a", title := "x", completed := true, createdAt := 0 }]) =
      [{ id := "a", title := "x", completed := true, createdAt := 0 }] ∧
    hasCompleted (clearCompletedTodos [{ id := "a", title := "x", completed := true, createdAt := 0 }]) = false :=
  c8_toggle_involutive_clear "a"
    [{ id := "a", title := "x", completed := true, createdAt := 0 }] (by decide)

/-- The array arithmetic of cyclePriority — index of the current priority in
the priorities array, plus one, modulo the array length — computes exactly
the cyclic step low to medium to high to low stated by the spec. -/
theorem cycleTodoPriority_eq (t : TodoP) :
    cycleTodoPriority t = { t with priority := specCycleStep t.priority } := by
  cases t with
  | mk i ti c ca p =>
    cases p <;> simp [cycleTodoPriority, specCycleStep, TodoP.mk.injEq] <;> decide

/-- Claim C9: cyclePriority advances the priority of the (first) record with
the given id one step along the fixed cycle low, medium, high, low; applying
it three times to the same id restores the whole collection, hence the
record's original priority. -/
theorem c9_cyclePriority_cycle (id : String) (todos : List TodoP) (t : TodoP)
    (hfind : todos.find? (fun x => x.id == id) = some t) :
    (cyclePriority id todos).find? (fun x => x.id == id) =
      some { t with priority := specCycleStep t.priority } ∧
    cyclePriority id (cyclePriority id (cyclePriority id todos)) = todos := by
  have hpt := List.find?_some hfind
  constructor
  · have h := find?_updateFirst (fun x => x.id == id) cycleTodoPriority todos t hfind hpt
    rw [cyclePriority, h, cycleTodoPriority_eq]
  · unfold cyclePriority
    rw [updateFirst_updateFirst (fun t : TodoP => t.id == id) cycleTodoPriority cycleTodoPriority
      (fun x hx => hx)]
    rw [updateFirst_updateFirst (fun t : TodoP => t.id == id)
      (fun x => cycleTodoPriority (cycleTodoPriority x)) cycleTodoPriority (fun x hx => hx)]
    apply updateFirst_of_fix
    intro x _
    show cycleTodoPriority (cycleTodoPriority (cycleTodoPriority x)) = x
    simp only [cycleTodoPriority_eq]
    cases x with
    | mk i ti c ca p => cases p <;> rfl

/-- Claim C9, witness: on a one-record collection with low priority, one
application yields medium, and three applications restore the record. -/
theorem c9_witness :
    (cyclePriority "a" [{ id := "a", title := "x", completed := false, createdAt := 0, priority := Priority.low }]).find? (fun x => x.id == "a") =
      some { id := "a", title := "x", completed := false, createdAt := 0, priority := specCycleStep Priority.low } ∧
    cyclePriority "a" (cyclePriority "a" (cyclePriority "a" [{ id := "a", title := "x", completed := false, createdAt := 0, priority := Priority.low }])) =
      [{ id := "a", title := "x", completed := false, createdAt := 0, priority := Priority.low }] :=
  c9_cyclePriority_cycle "a"
    [{ id := "a", title := "x", completed := false, createdAt := 0, priority := Priority.low }]
    { id := "a", title := "x", completed := false, createdAt := 0, priority := Priority.low }
    (by decide)

/-- Claim C10: the displayed active count of updateTodoCount equals the
length of the active-filtered view, and the hasCompleted flag of
updateEmptyState is true exactly when the completed-filtered view is
non-empty; both queries agree with getFilteredTodos on the same
collection. -/
theorem c10_queries_agree (todos : List Todo) :
    activeTodos todos = (getFilteredTodos .active todos).length ∧
    (hasCompleted todos = true ↔ getFilteredTodos .completed todos ≠ []) := by
  refine ⟨rfl, ?_⟩
  unfold hasCompleted getFilteredTodos
  constructor
  · intro h hnil
    obtain ⟨x, hx, hc⟩ := List.any_eq_true.mp h
    exact (List.filter_eq_nil_iff.mp hnil x hx) hc
  · intro h
    obtain ⟨x, hx⟩ := List.exists_mem_of_ne_nil _ h
    have hmem := List.mem_filter.mp hx
    exact List.any_eq_true.mpr ⟨x, hmem.1, hmem.2⟩
